import Mathlib

/-!
Shallow embedding of the Procheck procrastination tracker
(`latestprocheck/neueprufer_patched_v19.py`): the adaptive interval engine,
the log-loading code and the statistics aggregations, together with proofs
of the specification claims about them.  GUI concerns (widgets, dialogs,
window geometry) are outside the embedded fragment; wall-clock timestamps
appear as explicit parameters.
-/

namespace Procheck

/-! ### Constants (module top of the source) -/

def DEFAULT_INTERVAL_MIN : Int := 10
def MIN_INTERVAL : Int := 3
def MAX_INTERVAL : Int := 30
def STEP_UP : Int := 2
def STEP_DOWN : Int := 3
def STREAK_FOR_STEPUP : Int := 2

/-- `clamp(v, lo, hi)` = `max(lo, min(hi, v))`. -/
def clamp (v lo hi : Int) : Int := max lo (min hi v)

/-! ### Python string primitives used by the embedded code -/

/-- Characters treated as whitespace by Python's `str.strip()` / `str.split()`
(the ASCII whitespace class; exotic Unicode whitespace is not modelled). -/
def isPySpace (c : Char) : Bool :=
  c = ' ' || c = '\t' || c = '\n' || c = '\x0d' || c = '\x0b' || c = '\x0c'

/-- `str.strip()` on the character list. -/
def pyStripChars (cs : List Char) : List Char :=
  ((cs.dropWhile isPySpace).reverse.dropWhile isPySpace).reverse

/-- Python `str.strip()`. -/
def pyStrip (s : String) : String := String.mk (pyStripChars s.data)

/-- Worker for `str.split()`: walk the characters accumulating the current
word (reversed); whitespace closes a word, empty pieces are discarded. -/
def pyWordsAux : List Char → List Char → List String
  | [], acc => if acc = [] then [] else [String.mk acc.reverse]
  | c :: cs, acc =>
    if isPySpace c then
      (if acc = [] then pyWordsAux cs [] else String.mk acc.reverse :: pyWordsAux cs [])
    else pyWordsAux cs (c :: acc)

/-- Python `str.split()` with no argument: split on runs of whitespace,
discarding empty pieces. -/
def pySplit (s : String) : List String := pyWordsAux s.data []

/-- `s.replace(old, new)` for one-character arguments (as in
`note.replace(",", " ")`). -/
def replaceChar (a b : Char) (s : String) : String :=
  String.mk (s.data.map fun c => if c = a then b else c)

/-- Python `p.startswith(kp)`. -/
def pyStartsWith (p kp : String) : Bool := kp.data.isPrefixOf p.data

/-- Digits-with-underscores tail accepted by Python's `int()` after the first
digit: each underscore must be followed by a digit (so no doubled, leading or
trailing underscores). -/
def pyDigitsTail : List Char → Bool
  | [] => true
  | '_' :: c :: cs => c.isDigit && pyDigitsTail cs
  | c :: cs => c.isDigit && pyDigitsTail cs

/-- A nonempty ASCII digit string with optional underscore grouping. -/
def pyDigitsRun : List Char → Bool
  | [] => false
  | c :: cs => c.isDigit && pyDigitsTail cs

/-- Numeric value of a digit run, ignoring underscores. -/
def pyDigitsVal (cs : List Char) : Nat :=
  cs.foldl (fun a c => if c = '_' then a else a * 10 + (c.toNat - 48)) 0

/-- Python's `int(s)` on a decimal string: surrounding whitespace, an optional
sign, then ASCII digits (underscore grouping allowed); anything else raises,
modelled as `none`. -/
def pyInt (s : String) : Option Int :=
  match pyStripChars s.data with
  | '+' :: ds => if pyDigitsRun ds then some (pyDigitsVal ds : Int) else none
  | '-' :: ds => if pyDigitsRun ds then some (-(pyDigitsVal ds : Int)) else none
  | ds => if pyDigitsRun ds then some (pyDigitsVal ds : Int) else none

/-- The characters after the first `'='`, i.e. `p.split("=", 1)[1]`
(callers only use this on strings known to contain an `'='`). -/
def afterFirstEq : List Char → List Char
  | [] => []
  | c :: cs => if c = '=' then cs else afterFirstEq cs

/-- `p.split("=", 1)[1]` as a string. -/
def splitEqTail (p : String) : String := String.mk (afterFirstEq p.data)

/-- `safe_int_from_note`'s scan over the already-split tokens: the first token
starting with `key + "="` decides the result (a parse failure returns `None`
immediately, later tokens are never consulted). -/
def scanNoteTokens (kp : String) : List String → Option Int
  | [] => none
  | p :: rest => if pyStartsWith p kp then pyInt (splitEqTail p) else scanNoteTokens kp rest

/-- `safe_int_from_note(note, key)`: on a falsy (empty) note return `None`;
otherwise replace commas by spaces, split on whitespace, and scan for the
first token starting with `key + "="`. -/
def safe_int_from_note (note key : String) : Option Int :=
  if note = "" then none
  else scanNoteTokens (key ++ "=") (pySplit (replaceChar ',' ' ' note))

/-! ### The adaptive interval engine (`App._adapt_interval`) -/

/-- The profile update and log appends performed by `App._adapt_interval`
after its non-empty-task guard: read `interval_min` and `yes_streak` from the
task profile, apply the adaptive step, and append an
`interval_adapt_up`/`interval_adapt_down` event when the corresponding branch
runs.  Result: `(new interval_min, new yes_streak, appended (event, note)
records)`. -/
def adapt_interval (interval yes_streak : Int) (on_task : Bool) :
    Int × Int × List (String × String) :=
  if on_task then
    let ys := yes_streak + 1
    if ys ≥ STREAK_FOR_STEPUP then
      let i2 := clamp (interval + STEP_UP) MIN_INTERVAL MAX_INTERVAL
      (i2, 0, [("interval_adapt_up", "interval_min=" ++ toString i2)])
    else
      (interval, ys, [])
  else
    let i2 := clamp (interval - STEP_DOWN) MIN_INTERVAL MAX_INTERVAL
    (i2, 0, [("interval_adapt_down", "interval_min=" ++ toString i2)])

/-- The `(interval_min, yes_streak)` profile after one on-task response. -/
def adaptOnState (s : Int × Int) : Int × Int :=
  ((adapt_interval s.1 s.2 true).1, (adapt_interval s.1 s.2 true).2.1)

/-- Profiles reachable by the engine: interval inside `[3, 30]` and a streak
that was reset at the last interval change (so it is `0` or `1` at threshold
`2`; fresh profiles start at `(10, 0)`). -/
def ValidProfile (s : Int × Int) : Prop :=
  MIN_INTERVAL ≤ s.1 ∧ s.1 ≤ MAX_INTERVAL ∧ (s.2 = 0 ∨ s.2 = 1)

instance (s : Int × Int) : Decidable (ValidProfile s) := by
  unfold ValidProfile; infer_instance

/-! ### The event log and `StatsEngine.load` -/

/-- One CSV row as produced by `csv.DictReader` (all fields strings; a
missing/`None` field is the empty string, matching the `or ""`/`or 0`
defaulting at the use sites). -/
structure Row where
  timestamp : String
  event : String
  task : String
  session_seconds : String
  note : String
deriving DecidableEq

/-- A loaded event (one element of `StatsEngine.events`): `dt` is an
order-faithful numeric encoding of the parsed timestamp. -/
structure Event where
  dt : Nat
  day : String
  event : String
  task : String
  secs : Int
  note : String
  timestamp : String
deriving DecidableEq

/-- Value of two ASCII digit characters. -/
def d2val (a b : Char) : Option Nat :=
  if a.isDigit && b.isDigit then some ((a.toNat - 48) * 10 + (b.toNat - 48)) else none

/-- Value of four ASCII digit characters. -/
def d4val (a b c d : Char) : Option Nat :=
  if a.isDigit && b.isDigit && c.isDigit && d.isDigit then
    some ((((a.toNat - 48) * 10 + (b.toNat - 48)) * 10 + (c.toNat - 48)) * 10 + (d.toNat - 48))
  else none

/-- Length of a month, with the Gregorian leap rule (as `datetime` validates). -/
def daysInMonth (y m : Nat) : Nat :=
  if m = 2 then (if (y % 4 = 0 ∧ y % 100 ≠ 0) ∨ y % 400 = 0 then 29 else 28)
  else if m = 4 ∨ m = 6 ∨ m = 9 ∨ m = 11 then 30 else 31

/-- `parse_ts` = `datetime.strptime(ts, "%Y-%m-%d %H:%M:%S")`, modelled on the
zero-padded form the program itself writes (`now_iso`); a string of any other
shape, or with out-of-range fields, fails to parse.  The result is a numeric
encoding that is strictly monotone in the datetime (used only for ordering). -/
def parseTs (s : String) : Option Nat :=
  match s.data with
  | [a, b, c, d, '-', e, f, '-', g, h, ' ', i, j, ':', k, l, ':', m, n] => do
      let y ← d4val a b c d
      let mo ← d2val e f
      let dy ← d2val g h
      let hr ← d2val i j
      let mi ← d2val k l
      let se ← d2val m n
      if 1 ≤ mo ∧ mo ≤ 12 ∧ 1 ≤ dy ∧ dy ≤ daysInMonth y mo ∧ hr ≤ 23 ∧ mi ≤ 59 ∧ se ≤ 61 then
        some (((((y * 12 + (mo - 1)) * 31 + (dy - 1)) * 24 + hr) * 60 + mi) * 60 + se)
      else none
  | _ => none

/-- `day_key(parse_ts ts)` = `dt.strftime("%Y-%m-%d")`: on the zero-padded
timestamps accepted by `parseTs` this is the first 10 characters. -/
def dayKeyOf (ts : String) : String := String.mk (ts.data.take 10)

/-- `int(row.get("session_seconds", "0") or 0)`: the empty string is falsy and
yields `0`; otherwise Python `int()` (raising, i.e. `none`, on a non-integer). -/
def rowSecs (s : String) : Option Int := if s = "" then some 0 else pyInt s

/-- The event record `StatsEngine.load` builds from a row it keeps. -/
def mkEvent (r : Row) (dt : Nat) (n : Int) : Event :=
  { dt := dt, day := dayKeyOf r.timestamp, event := pyStrip r.event,
    task := pyStrip r.task, secs := n, note := r.note, timestamp := r.timestamp }

/-- The row loop of `StatsEngine.load`: a row whose timestamp fails to parse
is skipped (`except: continue`); a kept row whose `session_seconds` is not an
integer raises (the `int(...)` call is outside the `try`), modelled as
`Except.error` at the first such row. -/
def loadRows : List Row → Except String (List Event)
  | [] => .ok []
  | r :: rs =>
    match parseTs r.timestamp with
    | none => loadRows rs
    | some dt =>
      match rowSecs r.session_seconds with
      | none => .error ("invalid literal for int: " ++ r.session_seconds)
      | some n =>
        match loadRows rs with
        | .error msg => .error msg
        | .ok es => .ok (mkEvent r dt n :: es)

/-- `StatsEngine.load`: run the row loop, then `self.events.sort(key=e["dt"])`
(Python's stable sort, modelled as a stable insertion sort). -/
def load (rows : List Row) : Except String (List Event) :=
  match loadRows rows with
  | .error m => .error m
  | .ok es => .ok (es.insertionSort (fun a b => a.dt ≤ b.dt))

/-- The event a single row contributes when nothing raises (for stating what
`load` returns): `none` exactly for rows that are skipped. -/
def rowEvent? (r : Row) : Option Event :=
  (parseTs r.timestamp).bind fun dt =>
    (rowSecs r.session_seconds).map fun n => mkEvent r dt n

/-! ### Range filters -/

/-- Python string `<=` (code-point lexicographic). -/
def charListLe : List Char → List Char → Bool
  | [], _ => true
  | _ :: _, [] => false
  | a :: as, b :: bs => if a = b then charListLe as bs else decide (a < b)

/-- `a <= b` on strings as Python compares day keys. -/
def pyStrLe (a b : String) : Bool := charListLe a.data b.data

/-- `events_for_day(d)`. -/
def events_for_day (events : List Event) (d : String) : List Event :=
  events.filter (fun e => decide (e.day = d))

/-- `events_in_range(start_day, end_day)`: `start_day <= e["day"] <= end_day`. -/
def events_in_range (events : List Event) (startDay endDay : String) : List Event :=
  events.filter (fun e => pyStrLe startDay e.day && pyStrLe e.day endDay)

/-! ### `StatsEngine.summary_for_day` -/

/-- Python truthiness of the extracted note value (`if interval:`):
present and nonzero. -/
def pyTruthy (o : Option Int) : Bool :=
  match o with
  | none => false
  | some v => decide (v ≠ 0)

/-- The running counters of `summary_for_day`'s loop. -/
structure DayAcc where
  on_min : Int
  off_min : Int
  checkins_on : Nat
  checkins_off : Nat
  pro_count : Nat
  starts : Nat
  stops : Nat
  cancels : Nat
  completes : Nat
  breaks : Nat
deriving DecidableEq

def initDayAcc : DayAcc := ⟨0, 0, 0, 0, 0, 0, 0, 0, 0, 0⟩

/-- One iteration of `summary_for_day`'s event loop. -/
def summaryStep (a : DayAcc) (e : Event) : DayAcc :=
  let interval := safe_int_from_note e.note "interval_min"
  if e.event = "checkin_on_task" then
    { a with checkins_on := a.checkins_on + 1,
             on_min := if pyTruthy interval then a.on_min + interval.getD 0 else a.on_min }
  else if e.event = "checkin_off_task" then
    { a with checkins_off := a.checkins_off + 1,
             off_min := if pyTruthy interval then a.off_min + interval.getD 0 else a.off_min }
  else if e.event = "procrastination" then
    { a with pro_count := a.pro_count + 1,
             off_min := if pyTruthy interval then a.off_min + interval.getD 0 else a.off_min }
  else if e.event = "start" then { a with starts := a.starts + 1 }
  else if e.event = "stop" then { a with stops := a.stops + 1 }
  else if e.event = "cancel" then { a with cancels := a.cancels + 1 }
  else if e.event = "session_complete" then
    { a with completes := a.completes + 1, stops := a.stops + 1 }
  else if e.event = "break" then { a with breaks := a.breaks + 1 }
  else a

/-- The record returned by `summary_for_day` (float division as `ℚ`). -/
structure DaySummary where
  day : String
  on_min : Int
  off_min : Int
  total_min : Int
  ratio_on : Option ℚ
  checkins_on : Nat
  checkins_off : Nat
  procrastinations : Nat
  starts : Nat
  stops : Nat
  cancels : Nat
  completes : Nat
  breaks : Nat
deriving DecidableEq

/-- `summary_for_day(d)`. -/
def summary_for_day (events : List Event) (d : String) : DaySummary :=
  let a := (events_for_day events d).foldl summaryStep initDayAcc
  let total := a.on_min + a.off_min
  { day := d, on_min := a.on_min, off_min := a.off_min, total_min := total,
    ratio_on := if 0 < total then some ((a.on_min : ℚ) / ((total : Int) : ℚ)) else none,
    checkins_on := a.checkins_on, checkins_off := a.checkins_off,
    procrastinations := a.pro_count, starts := a.starts, stops := a.stops,
    cancels := a.cancels, completes := a.completes, breaks := a.breaks }

/-! ### `StatsEngine.sessions_by_task_in_range` -/

/-- `(e.get("task") or "").strip() or "(no task)"`. -/
def normTask (t : String) : String :=
  if pyStrip t = "" then "(no task)" else pyStrip t

/-- The per-task record `{"sessions": .., "total_secs": .., "cancels": ..}`. -/
structure SessRec where
  sessions : Nat
  total_secs : Int
  cancels : Nat
deriving DecidableEq

/-- `by.setdefault(task, {...})` followed by a mutation of that record: update
in place if the key is present, otherwise append the mutated default (dicts
iterate in insertion order). -/
def updateTally (m : List (String × SessRec)) (t : String) (f : SessRec → SessRec) :
    List (String × SessRec) :=
  match m with
  | [] => [(t, f ⟨0, 0, 0⟩)]
  | (k, v) :: rest => if k = t then (k, f v) :: rest else (k, v) :: updateTally rest t f

/-- One iteration of the `sessions_by_task_in_range` loop: events other than
`stop`/`cancel` are skipped (`continue`); `stop` bumps `sessions` and adds the
event's seconds; `cancel` bumps `cancels` only. -/
def tallyStep (m : List (String × SessRec)) (e : Event) : List (String × SessRec) :=
  if e.event = "stop" then
    updateTally m (normTask e.task)
      (fun r => { r with sessions := r.sessions + 1, total_secs := r.total_secs + e.secs })
  else if e.event = "cancel" then
    updateTally m (normTask e.task) (fun r => { r with cancels := r.cancels + 1 })
  else m

/-- Association-list lookup (dict access by key). -/
def alookup {β : Type} (t : String) : List (String × β) → Option β
  | [] => none
  | (k, v) :: rest => if k = t then some v else alookup t rest

/-- The output row `(task, sessions, total_secs, avg, cancels)`;
`avg = total_secs / sessions` when `sessions > 0`, else `None`. -/
def sessRowOf (t : String) (r : SessRec) : String × Nat × Int × Option ℚ × Nat :=
  (t, r.sessions, r.total_secs,
    if 0 < r.sessions then some ((r.total_secs : ℚ) / (r.sessions : ℚ)) else none,
    r.cancels)

/-- Sort key of an output row: `(r[2], r[1])` = (total seconds, sessions). -/
def rowKey (row : String × Nat × Int × Option ℚ × Nat) : Int × Nat :=
  (row.2.2.1, row.2.1)

/-- Lexicographic `≤` on sort keys. -/
def keyLe (p q : Int × Nat) : Prop := p.1 < q.1 ∨ (p.1 = q.1 ∧ p.2 ≤ q.2)

instance (p q : Int × Nat) : Decidable (keyLe p q) := by
  unfold keyLe; infer_instance

/-- `sessions_by_task_in_range(start_day, end_day)`: tally `stop`/`cancel`
events by task, build the rows, and sort them descending by
`(total_secs, sessions)` (`sort(key=..., reverse=True)`, stable). -/
def sessions_by_task_in_range (events : List Event) (startDay endDay : String) :
    List (String × Nat × Int × Option ℚ × Nat) :=
  let evs := events_in_range events startDay endDay
  let tally := evs.foldl tallyStep []
  (tally.map (fun p => sessRowOf p.1 p.2)).insertionSort
    (fun a b => keyLe (rowKey b) (rowKey a))

/-- A `stop` event credited to (normalized) task `t`. -/
def isStopFor (t : String) (e : Event) : Bool :=
  decide (e.event = "stop") && decide (normTask e.task = t)

/-- A `cancel` event credited to (normalized) task `t`. -/
def isCancelFor (t : String) (e : Event) : Bool :=
  decide (e.event = "cancel") && decide (normTask e.task = t)

/-- Number of `stop` events for task `t`. -/
def countStops (evs : List Event) (t : String) : Nat := evs.countP (isStopFor t)

/-- Sum of `session_seconds` over the `stop` events for task `t`. -/
def sumStopSecs (evs : List Event) (t : String) : Int :=
  ((evs.filter (isStopFor t)).map Event.secs).sum

/-- Number of `cancel` events for task `t`. -/
def countCancels (evs : List Event) (t : String) : Nat := evs.countP (isCancelFor t)

/-- An event that makes task `t` appear in the tally at all. -/
def touchesTask (t : String) (e : Event) : Bool := isStopFor t e || isCancelFor t e

/-! ### `StatsEngine.session_stats_in_range` -/

/-- A window boundary in the time-to-first-procrastination scan:
`evs[j].get("event") in ("stop", "cancel", "start")`. -/
def isBoundary (e : Event) : Bool :=
  decide (e.event = "stop") || decide (e.event = "cancel") || decide (e.event = "start")

/-- The first inner `while`: walk forward from the event after a `start`,
stopping at a boundary (`none`) or at the first `procrastination`, whose
`secs` is recorded (`evs[j].get("secs", 0) or 0` is the identity on the
integer `secs` field). -/
def findFirstPro : List Event → Option Int
  | [] => none
  | e :: rest =>
    if isBoundary e then none
    else if e.event = "procrastination" then some e.secs
    else findFirstPro rest

/-- The second inner `while` plus `i = j + 1`: drop everything up to and
including the first boundary event. -/
def skipPastBoundary : List Event → List Event
  | [] => []
  | e :: rest => if isBoundary e then rest else skipPastBoundary rest

/-- The `tt_first` values collected by the outer loop of
`session_stats_in_range`: at each `start` reached by the scan, record the
window's first procrastination (if any) and resume after the window's
boundary event — so a `start` that terminates a window is consumed and opens
no window of its own. -/
def ttFirstList : List Event → List Int
  | [] => []
  | e :: rest =>
    if e.event = "start" then
      (match findFirstPro rest with | some v => [v] | none => []) ++
        ttFirstList (skipPastBoundary rest)
    else ttFirstList rest
termination_by l => l.length
decreasing_by
  · have h : ∀ l : List Event, (skipPastBoundary l).length ≤ l.length := by
      intro l
      induction l with
      | nil => simp [skipPastBoundary]
      | cons x xs ih =>
        simp only [skipPastBoundary]
        split
        · simp
        · exact Nat.le_trans ih (Nat.le_succ _)
    simpa using Nat.lt_succ_of_le (h rest)
  · simp

/-- `session_stats_in_range(start_day, end_day)` =
`(avg_secs, cancel_rate, avg_tt)`, float division as `ℚ`. -/
def session_stats_in_range (events : List Event) (startDay endDay : String) :
    Option ℚ × Option ℚ × Option ℚ :=
  let evs := events_in_range events startDay endDay
  let ends := evs.filter (fun e => decide (e.event = "stop") || decide (e.event = "cancel"))
  let stops := ends.filter (fun e => decide (e.event = "stop"))
  let avg_secs : Option ℚ :=
    if ends ≠ [] then
      (if stops ≠ [] then
        some (((stops.map (fun e => max 0 e.secs)).sum : ℚ) / ((max 1 stops.length : Nat) : ℚ))
      else none)
    else none
  let cancels := ends.filter (fun e => decide (e.event = "cancel"))
  let cancel_rate : Option ℚ :=
    if ends ≠ [] then some ((cancels.length : ℚ) / (ends.length : ℚ)) else none
  let tt := ttFirstList evs
  let avg_tt : Option ℚ :=
    if tt ≠ [] then some ((tt.sum : ℚ) / (tt.length : ℚ)) else none
  (avg_secs, cancel_rate, avg_tt)

/-- Modelled from the spec for the refinement comparison (not from the code):
"for each `start` event, scan forward until the next `stop`/`cancel`/`start`
boundary, record the `session_seconds` value of the first `procrastination`
event encountered strictly inside that window (if any)" — every `start` event
opens such a window. -/
def ttFirstListSpec : List Event → List Int
  | [] => []
  | e :: rest =>
    (if e.event = "start" then
      (match findFirstPro rest with | some v => [v] | none => [])
    else []) ++ ttFirstListSpec rest

/-- Modelled from the spec for the refinement comparison: the average of the
spec's per-session first-procrastination values over the range, `None` when no
session had one. -/
def avgTTSpec (events : List Event) (startDay endDay : String) : Option ℚ :=
  let tt := ttFirstListSpec (events_in_range events startDay endDay)
  if tt ≠ [] then some ((tt.sum : ℚ) / (tt.length : ℚ)) else none

/-- No `start` event in the list serves as the window boundary of an earlier
`start` (the condition under which the code's scan and the spec's per-start
scan agree). -/
def noStartBoundary : List Event → Bool
  | [] => true
  | e :: rest =>
    (if e.event = "start" then
      (match rest.find? isBoundary with
       | some b => !decide (b.event = "start")
       | none => true)
    else true) && noStartBoundary rest

/-! ### `App.start_session` -/

/-- A task profile in `state["tasks"]`. -/
structure TaskProfile where
  interval_min : Int
  yes_streak : Int
  color : String
deriving DecidableEq

/-- One appended log line (the wall-clock timestamp column is the call
time and is omitted). -/
structure LogRecord where
  event : String
  task : String
  secs : Int
  note : String
deriving DecidableEq

/-- The in-memory state of `App` relevant to session handling: the task entry
field, the task profiles, the running-session fields, and the appended log. -/
structure AppState where
  active_task : String
  tasks : List (String × TaskProfile)
  session_start_ts : Option ℚ
  session_elapsed : ℚ
  last_tick : Option ℚ
  next_prompt_at : Option ℚ
  current_interval_min : Int
  target_duration_min : Int
  log : List LogRecord
deriving DecidableEq

/-- `App._task_state(task)`: look the profile up, creating
`{"interval_min": 10, "yes_streak": 0, "color": "#dfe8ff"}` on first
reference; returns the profile and the (possibly extended) profile map. -/
def task_state (tasks : List (String × TaskProfile)) (task : String) :
    TaskProfile × List (String × TaskProfile) :=
  match alookup task tasks with
  | some st => (st, tasks)
  | none =>
    let st : TaskProfile := ⟨DEFAULT_INTERVAL_MIN, 0, "#dfe8ff"⟩
    (st, tasks ++ [(task, st)])

/-- `sep.join(parts)`. -/
def joinSep (sep : String) : List String → String
  | [] => ""
  | [x] => x
  | x :: xs => x ++ sep ++ joinSep sep xs

/-- `App._compose_note(reason, target_min, interval_min, extra)`: a truthy
reason is whitespace-normalized; truthy (present and nonzero) `target_min` and
`interval_min` become `key=value` tokens; the pieces are joined by `" | "`. -/
def compose_note (reason : Option String) (target_min interval_min : Option Int)
    (extra : Option String) : String :=
  let parts1 : List String :=
    match reason with
    | some r =>
      if r = "" then []
      else
        let r2 := joinSep " " (pySplit (pyStrip r))
        if r2 = "" then [] else [r2]
    | none => []
  let kv : List String :=
    (match target_min with
     | some t => if t ≠ 0 then ["target_min=" ++ toString t] else []
     | none => []) ++
    (match interval_min with
     | some i => if i ≠ 0 then ["interval_min=" ++ toString i] else []
     | none => []) ++
    (match extra with
     | some x => if x ≠ "" then [pyStrip x] else []
     | none => [])
  let parts := parts1 ++ (if kv = [] then [] else [joinSep " " kv])
  pyStrip (joinSep " | " parts)

/-- Python `int()` truncation (toward zero) of a float, on `ℚ`. -/
def pyTrunc (q : ℚ) : Int := q.num / (q.den : Int)

/-- `App._append_log(event, note)` with no overrides: the task column is the
stripped active task; `secs` is the truncated elapsed time when a session is
running, else `0`. -/
def append_log (s : AppState) (event note : String) : AppState :=
  { s with log := s.log ++
      [{ event := event, task := pyStrip s.active_task,
         secs := if s.session_start_ts.isSome then pyTrunc s.session_elapsed else 0,
         note := note }] }

/-- `App.start_session()` at wall-clock time `now`: a falsy stripped task is a
bare `return`; otherwise load/create the profile, seed the interval, reset the
session clock, compute the next check-in threshold, and log `start` (widget
repainting is omitted). -/
def start_session (s : AppState) (now : ℚ) : AppState :=
  let task := pyStrip s.active_task
  if task = "" then s
  else
    let p := task_state s.tasks task
    let s1 := { s with tasks := p.2,
                       current_interval_min := p.1.interval_min,
                       session_start_ts := some now,
                       session_elapsed := 0,
                       last_tick := some now,
                       next_prompt_at := some ((p.1.interval_min : ℚ) * 60) }
    append_log s1 "start"
      (compose_note none (some s.target_duration_min) (some p.1.interval_min) none)

/-! ## Theorems

### The adaptive interval engine (claims C2, C4, C5) -/

/-- Closed form of the on-task profile update. -/
theorem adaptOn_eq (s : Int × Int) :
    adaptOnState s =
      if STREAK_FOR_STEPUP ≤ s.2 + 1 then
        (clamp (s.1 + STEP_UP) MIN_INTERVAL MAX_INTERVAL, 0)
      else (s.1, s.2 + 1) := by
  unfold adaptOnState adapt_interval
  by_cases h : STREAK_FOR_STEPUP ≤ s.2 + 1 <;> simp [h]

/-- The on-task update preserves reachability of the profile. -/
theorem validProfile_adaptOn {s : Int × Int} (hs : ValidProfile s) :
    ValidProfile (adaptOnState s) := by
  rcases hs with ⟨h1, h2, h3⟩
  rw [adaptOn_eq]
  unfold ValidProfile clamp
  simp only [STREAK_FOR_STEPUP, MIN_INTERVAL, MAX_INTERVAL, STEP_UP] at *
  split_ifs with h
  · refine ⟨?_, ?_, Or.inl rfl⟩ <;> simp
  · refine ⟨h1, h2, ?_⟩
    show s.2 + 1 = 0 ∨ s.2 + 1 = 1
    omega

/-- C4: over any sequence of on-task responses applied to a reachable task
profile, `interval_min` stays within `[MIN_INTERVAL, MAX_INTERVAL] = [3, 30]`;
a single response below the streak threshold leaves `interval_min` unchanged
and only increments the streak; a response reaching the threshold (exactly the
second consecutive one since the last change/reset, by `ValidProfile`) raises
the interval by exactly `+2` clamped to `30` — never downward — and resets the
streak to `0`. -/
theorem on_task_sequence_bounds (s : Int × Int) (n : Nat) (hs : ValidProfile s) :
    (MIN_INTERVAL ≤ (adaptOnState^[n] s).1 ∧ (adaptOnState^[n] s).1 ≤ MAX_INTERVAL)
    ∧ (s.2 + 1 < STREAK_FOR_STEPUP → adaptOnState s = (s.1, s.2 + 1))
    ∧ (STREAK_FOR_STEPUP ≤ s.2 + 1 →
        adaptOnState s = (min (s.1 + STEP_UP) MAX_INTERVAL, 0)
        ∧ s.1 ≤ (adaptOnState s).1) := by
  have hiter : ∀ m : Nat, ValidProfile (adaptOnState^[m] s) := by
    intro m
    induction m with
    | zero => simpa using hs
    | succ k ih => rw [Function.iterate_succ_apply']; exact validProfile_adaptOn ih
  refine ⟨⟨(hiter n).1, (hiter n).2.1⟩, ?_, ?_⟩
  · intro h
    rw [adaptOn_eq, if_neg (not_le.mpr h)]
  · intro h
    have h1 := hs.1
    have h2 := hs.2.1
    have heq : adaptOnState s = (min (s.1 + STEP_UP) MAX_INTERVAL, 0) := by
      rw [adaptOn_eq, if_pos h]
      unfold clamp
      simp only [MIN_INTERVAL, MAX_INTERVAL, STEP_UP, Prod.mk.injEq] at *
      exact ⟨by omega, trivial⟩
    refine ⟨heq, ?_⟩
    rw [heq]
    show s.1 ≤ min (s.1 + STEP_UP) MAX_INTERVAL
    simp only [MAX_INTERVAL, STEP_UP, MIN_INTERVAL] at *
    omega

/-- Witness for `on_task_sequence_bounds` at the fresh profile `(10, 0)`
with five on-task responses. -/
theorem on_task_sequence_bounds_witness :
    (MIN_INTERVAL ≤ (adaptOnState^[5] ((10 : Int), (0 : Int))).1
      ∧ (adaptOnState^[5] ((10 : Int), (0 : Int))).1 ≤ MAX_INTERVAL)
    ∧ ((0 : Int) + 1 < STREAK_FOR_STEPUP →
        adaptOnState ((10 : Int), (0 : Int)) = (10, (0 : Int) + 1))
    ∧ (STREAK_FOR_STEPUP ≤ (0 : Int) + 1 →
        adaptOnState ((10 : Int), (0 : Int)) = (min ((10 : Int) + STEP_UP) MAX_INTERVAL, 0)
        ∧ (10 : Int) ≤ (adaptOnState ((10 : Int), (0 : Int))).1) :=
  on_task_sequence_bounds (10, 0) 5 (by decide)

/-- C5: an off-task response or procrastination mark (both call
`_adapt_interval(on_task=False)`) lowers `interval_min` by exactly
`STEP_DOWN = 3` floored at `MIN_INTERVAL = 3`, resets the streak to `0`
whatever it was, and logs `interval_adapt_down` with the new value. -/
theorem off_task_step_floor (interval yes_streak : Int)
    (h1 : MIN_INTERVAL ≤ interval) (h2 : interval ≤ MAX_INTERVAL) :
    adapt_interval interval yes_streak false
      = (max MIN_INTERVAL (interval - STEP_DOWN), 0,
         [("interval_adapt_down",
           "interval_min=" ++ toString (max MIN_INTERVAL (interval - STEP_DOWN)))]) := by
  unfold adapt_interval
  have hc : clamp (interval - STEP_DOWN) MIN_INTERVAL MAX_INTERVAL
      = max MIN_INTERVAL (interval - STEP_DOWN) := by
    unfold clamp
    simp only [MIN_INTERVAL, MAX_INTERVAL, STEP_DOWN] at *
    omega
  simp [hc]

/-- Witness for `off_task_step_floor` at interval `10`, streak `1`. -/
theorem off_task_step_floor_witness :
    adapt_interval 10 1 false
      = (max MIN_INTERVAL ((10 : Int) - STEP_DOWN), 0,
         [("interval_adapt_down",
           "interval_min=" ++ toString (max MIN_INTERVAL ((10 : Int) - STEP_DOWN)))]) :=
  off_task_step_floor 10 1 (by decide) (by decide)

/-- C2 (amended): an `interval_adapt_up`/`interval_adapt_down` record is
appended exactly when the adaptation branch fires — an on-task response
reaching the streak threshold, or any off-task step — even when clamping at a
bound leaves `interval_min` unchanged.  Every step that does change
`interval_min` is logged, and a below-threshold streak increment changes
nothing and logs nothing. -/
theorem adapt_logs_iff_branch_fires (interval yes_streak : Int) (on_task : Bool) :
    ((adapt_interval interval yes_streak on_task).1 ≠ interval →
      (adapt_interval interval yes_streak on_task).2.2 ≠ [])
    ∧ (on_task = true → yes_streak + 1 < STREAK_FOR_STEPUP →
      (adapt_interval interval yes_streak on_task).2.2 = []
      ∧ (adapt_interval interval yes_streak on_task).1 = interval)
    ∧ ((adapt_interval interval yes_streak on_task).2.2 ≠ []
      ↔ (on_task = true ∧ STREAK_FOR_STEPUP ≤ yes_streak + 1) ∨ on_task = false) := by
  cases on_task
  · simp [adapt_interval]
  · by_cases h : STREAK_FOR_STEPUP ≤ yes_streak + 1
    · simp [adapt_interval, h]
    · simp [adapt_interval, h]

/-- Witness for `adapt_logs_iff_branch_fires` at interval `10`, streak `1`,
on-task. -/
theorem adapt_logs_iff_branch_fires_witness :
    ((adapt_interval 10 1 true).1 ≠ 10 → (adapt_interval 10 1 true).2.2 ≠ [])
    ∧ (true = true → (1 : Int) + 1 < STREAK_FOR_STEPUP →
      (adapt_interval 10 1 true).2.2 = [] ∧ (adapt_interval 10 1 true).1 = 10)
    ∧ ((adapt_interval 10 1 true).2.2 ≠ []
      ↔ (true = true ∧ STREAK_FOR_STEPUP ≤ (1 : Int) + 1) ∨ true = false) :=
  adapt_logs_iff_branch_fires 10 1 true

/-- C2 counterexample to the claim as stated: with the interval already at the
cap (`30`) and streak `1`, an on-task response reaches the threshold, leaves
`interval_min` at `30` (no change), yet still appends an `interval_adapt_up`
event — so logging is not equivalent to an actual change. -/
theorem adapt_up_logged_at_cap_without_change :
    (adapt_interval 30 1 true).1 = 30 ∧ (adapt_interval 30 1 true).2.2 ≠ [] := by
  decide

/-! ### `start_session` on an empty task (claim C8) -/

/-- C8: starting a session whose task strips to the empty string is a silent
no-op — the state (log included: no event appended; task profiles: none
created or modified; session clock, elapsed time and next check-in threshold)
is returned unchanged. -/
theorem start_session_empty_task_noop (s : AppState) (now : ℚ)
    (h : pyStrip s.active_task = "") : start_session s now = s := by
  simp [start_session, h]

/-- Witness for `start_session_empty_task_noop` on a whitespace-only task. -/
theorem start_session_empty_task_noop_witness :
    start_session ⟨"  ", [], none, 0, none, none, 10, 30, []⟩ 5
      = ⟨"  ", [], none, 0, none, none, 10, 30, []⟩ :=
  start_session_empty_task_noop ⟨"  ", [], none, 0, none, none, 10, 30, []⟩ 5 (by decide)

/-! ### `summary_for_day`'s ratio (claim C7) -/

/-- C7: `summary_for_day` returns `ratio_on = on_min / (on_min + off_min)`
whenever `on_min + off_min > 0`, and `None` (neither zero nor an error) when
`on_min + off_min = 0`. -/
theorem ratio_on_defined_iff_total_pos (events : List Event) (d : String) :
    (0 < (summary_for_day events d).on_min + (summary_for_day events d).off_min →
      (summary_for_day events d).ratio_on
        = some (((summary_for_day events d).on_min : ℚ)
            / (((summary_for_day events d).on_min + (summary_for_day events d).off_min : Int) : ℚ)))
    ∧ ((summary_for_day events d).on_min + (summary_for_day events d).off_min = 0 →
      (summary_for_day events d).ratio_on = none) := by
  constructor
  · intro h
    simp only [summary_for_day] at h ⊢
    rw [if_pos h]
  · intro h
    simp only [summary_for_day] at h ⊢
    rw [if_neg (by omega)]

/-- Witness for `ratio_on_defined_iff_total_pos`: a day with one on-task
check-in annotated `interval_min=10` (positive total), and an empty log
(zero total). -/
theorem ratio_on_defined_iff_total_pos_witness :
    ((summary_for_day [⟨0, "2024-01-01", "checkin_on_task", "T", 0, "interval_min=10",
        "2024-01-01 09:00:00"⟩] "2024-01-01").ratio_on
      = some (((summary_for_day [⟨0, "2024-01-01", "checkin_on_task", "T", 0, "interval_min=10",
          "2024-01-01 09:00:00"⟩] "2024-01-01").on_min : ℚ)
        / (((summary_for_day [⟨0, "2024-01-01", "checkin_on_task", "T", 0, "interval_min=10",
            "2024-01-01 09:00:00"⟩] "2024-01-01").on_min
          + (summary_for_day [⟨0, "2024-01-01", "checkin_on_task", "T", 0, "interval_min=10",
              "2024-01-01 09:00:00"⟩] "2024-01-01").off_min : Int) : ℚ)))
    ∧ ((summary_for_day [] "2024-01-01").ratio_on = none) :=
  ⟨(ratio_on_defined_iff_total_pos [⟨0, "2024-01-01", "checkin_on_task", "T", 0, "interval_min=10",
      "2024-01-01 09:00:00"⟩] "2024-01-01").1 (by decide),
   (ratio_on_defined_iff_total_pos [] "2024-01-01").2 (by decide)⟩

/-! ### `safe_int_from_note` first-match semantics (claim C9) -/

/-- C9: `safe_int_from_note` scans the space/comma-separated tokens in order;
the first token starting with `key + "="` alone decides the result — its value
after the first `"="` is parsed with Python `int()`, and a parse failure
yields `None` immediately, regardless of any valid `key=<integer>` token later
in the note. -/
theorem safe_int_first_match (note key : String) (pre post : List String) (p : String)
    (hsplit : pySplit (replaceChar ',' ' ' note) = pre ++ p :: post)
    (hpre : ∀ q ∈ pre, pyStartsWith q (key ++ "=") = false)
    (hp : pyStartsWith p (key ++ "=") = true) :
    safe_int_from_note note key = pyInt (splitEqTail p) := by
  have hne : note ≠ "" := by
    intro h
    subst h
    simp [pySplit, pyWordsAux, replaceChar] at hsplit
  unfold safe_int_from_note
  rw [if_neg hne, hsplit]
  clear hsplit
  induction pre with
  | nil => simp [scanNoteTokens, hp]
  | cons q qs ih =>
    have hq := hpre q (by simp)
    simp only [List.cons_append, scanNoteTokens, hq, Bool.false_eq_true, if_false]
    exact ih (fun r hr => hpre r (by simp [hr]))

/-- Witness for `safe_int_first_match`: in `"x=abc x=5"` the first `x=` token
does not parse, so the result is `None` although a later token is `x=5`. -/
theorem safe_int_first_match_witness :
    safe_int_from_note "x=abc x=5" "x" = pyInt (splitEqTail "x=abc")
    ∧ pyInt (splitEqTail "x=abc") = none
    ∧ pyInt (splitEqTail "x=5") = some 5 :=
  ⟨safe_int_first_match "x=abc x=5" "x" [] ["x=5"] "x=abc" (by decide) (by decide) (by decide),
   by decide, by decide⟩

/-! ### `StatsEngine.load` error recovery (claim C1) -/

/-- The row loop keeps exactly the rows whose timestamp parses, provided every
such row also has integer seconds (otherwise it errors at the first offender). -/
theorem loadRows_eq_filterMap (rows : List Row)
    (h : ∀ r ∈ rows, parseTs r.timestamp ≠ none → rowSecs r.session_seconds ≠ none) :
    loadRows rows = .ok (rows.filterMap rowEvent?) := by
  induction rows with
  | nil => rfl
  | cons r rs ih =>
    have hr := h r (by simp)
    have hrs : ∀ x ∈ rs, parseTs x.timestamp ≠ none → rowSecs x.session_seconds ≠ none :=
      fun x hx => h x (by simp [hx])
    cases hp : parseTs r.timestamp with
    | none => simp [loadRows, hp, rowEvent?, ih hrs]
    | some dt =>
      cases hs : rowSecs r.session_seconds with
      | none => exact absurd hs (hr (by simp [hp]))
      | some n => simp [loadRows, hp, hs, rowEvent?, ih hrs]

/-- C1 (amended): `load` silently skips exactly the records whose timestamp
fails to parse — when every record with a parseable timestamp has integer
`session_seconds`, it returns all parseable records sorted by timestamp.  A
record whose `session_seconds` is not an integer is *not* recovered: the
`int(...)` conversion sits outside the `try`, so loading raises at the first
such record instead of skipping it. -/
theorem load_skips_bad_timestamps_only (rows : List Row)
    (h : ∀ r ∈ rows, parseTs r.timestamp ≠ none → rowSecs r.session_seconds ≠ none) :
    load rows = .ok ((rows.filterMap rowEvent?).insertionSort (fun a b => a.dt ≤ b.dt)) := by
  unfold load
  rw [loadRows_eq_filterMap rows h]

/-- Witness for `load_skips_bad_timestamps_only`: two good rows around a row
whose timestamp does not parse; the loop keeps exactly the two good rows. -/
theorem load_skips_bad_timestamps_only_witness :
    load [⟨"2024-01-01 10:00:00", "start", "T", "0", ""⟩,
          ⟨"not a timestamp", "stop", "T", "17", ""⟩,
          ⟨"2024-01-01 09:00:00", "stop", "T", "600", ""⟩]
      = .ok (([⟨"2024-01-01 10:00:00", "start", "T", "0", ""⟩,
               ⟨"not a timestamp", "stop", "T", "17", ""⟩,
               ⟨"2024-01-01 09:00:00", "stop", "T", "600", ""⟩].filterMap
                rowEvent?).insertionSort (fun a b => a.dt ≤ b.dt))
    ∧ ([⟨"2024-01-01 10:00:00", "start", "T", "0", ""⟩,
        ⟨"not a timestamp", "stop", "T", "17", ""⟩,
        ⟨"2024-01-01 09:00:00", "stop", "T", "600", ""⟩].filterMap rowEvent?).length = 2 :=
  ⟨load_skips_bad_timestamps_only
      [⟨"2024-01-01 10:00:00", "start", "T", "0", ""⟩,
       ⟨"not a timestamp", "stop", "T", "17", ""⟩,
       ⟨"2024-01-01 09:00:00", "stop", "T", "600", ""⟩] (by decide),
   by decide⟩

/-- C1 counterexample to the claim as stated: a single record with a valid
timestamp but non-integer `session_seconds` makes loading raise — the record
is not skipped and nothing is returned. -/
theorem load_raises_on_noninteger_secs :
    load [⟨"2024-01-02 03:04:05", "stop", "T", "abc", ""⟩]
      = .error "invalid literal for int: abc" := rfl

/-! ### The time-to-first-procrastination scan (claim C3) -/

/-- Dropping a window never lengthens the list. -/
theorem skipPastBoundary_length_le (l : List Event) :
    (skipPastBoundary l).length ≤ l.length := by
  induction l with
  | nil => simp [skipPastBoundary]
  | cons x xs ih =>
    simp only [skipPastBoundary]
    split
    · simp
    · exact Nat.le_trans ih (Nat.le_succ _)

/-- `noStartBoundary` passes to the tail. -/
theorem noStartBoundary_tail (e : Event) (rest : List Event)
    (h : noStartBoundary (e :: rest) = true) : noStartBoundary rest = true := by
  unfold noStartBoundary at h
  simp only [Bool.and_eq_true] at h
  exact h.2

/-- `noStartBoundary` passes to the remainder after a window. -/
theorem noStartBoundary_skipPast (l : List Event) (h : noStartBoundary l = true) :
    noStartBoundary (skipPastBoundary l) = true := by
  induction l with
  | nil => simpa [skipPastBoundary] using h
  | cons e rest ih =>
    have ht := noStartBoundary_tail e rest h
    by_cases hb : isBoundary e = true
    · simpa [skipPastBoundary, hb] using ht
    · simpa [skipPastBoundary, hb] using ih ht

/-- Everything strictly inside a window is a non-start, and when the window's
boundary is not a start either, the spec's scan collects nothing from the
dropped part. -/
theorem ttSpec_skipPast (l : List Event)
    (h : ∀ b, l.find? isBoundary = some b → ¬ b.event = "start") :
    ttFirstListSpec (skipPastBoundary l) = ttFirstListSpec l := by
  induction l with
  | nil => rfl
  | cons e rest ih =>
    by_cases hb : isBoundary e = true
    · have hns : ¬ e.event = "start" := h e (List.find?_cons_of_pos rest hb)
      simp [skipPastBoundary, hb, ttFirstListSpec, hns]
    · have hns : ¬ e.event = "start" := by
        intro hs
        exact hb (by simp [isBoundary, hs])
      have h2 : ∀ b, rest.find? isBoundary = some b → ¬ b.event = "start" := by
        intro b hbf
        exact h b (by rw [List.find?_cons_of_neg rest hb]; exact hbf)
      simp only [skipPastBoundary, hb, if_false, ttFirstListSpec, hns, if_neg,
        List.nil_append, Bool.false_eq_true]
      exact ih h2

/-- When no start in the list is the boundary of an earlier start's window,
the code's scan and the spec's per-start scan collect the same values. -/
theorem ttFirstList_eq_spec (l : List Event) (h : noStartBoundary l = true) :
    ttFirstList l = ttFirstListSpec l := by
  have main : ∀ (n : Nat) (l : List Event), l.length ≤ n → noStartBoundary l = true →
      ttFirstList l = ttFirstListSpec l := by
    intro n
    induction n with
    | zero =>
      intro l hl _
      have hnil : l = [] := List.length_eq_zero.mp (Nat.le_zero.mp hl)
      subst hnil
      simp [ttFirstList, ttFirstListSpec]
    | succ k ih =>
      intro l hl hns
      match l with
      | [] => simp [ttFirstList, ttFirstListSpec]
      | e :: rest =>
        have hlen : rest.length ≤ k := by
          have := hl
          simp only [List.length_cons] at this
          omega
        have htail : noStartBoundary rest = true := noStartBoundary_tail e rest hns
        rw [ttFirstList.eq_def]
        by_cases hs : e.event = "start"
        · have hhead : ∀ b, rest.find? isBoundary = some b → ¬ b.event = "start" := by
            intro b hbf hbs
            unfold noStartBoundary at hns
            rw [if_pos hs, hbf] at hns
            simp [hbs] at hns
          have hskiplen : (skipPastBoundary rest).length ≤ k :=
            Nat.le_trans (skipPastBoundary_length_le rest) hlen
          have h2 := ih (skipPastBoundary rest) hskiplen (noStartBoundary_skipPast rest htail)
          have h3 := ttSpec_skipPast rest hhead
          show (if e.event = "start" then
              (match findFirstPro rest with | some v => [v] | none => []) ++
                ttFirstList (skipPastBoundary rest)
            else ttFirstList rest) = ttFirstListSpec (e :: rest)
          rw [if_pos hs, h2, h3]
          simp [ttFirstListSpec, hs]
        · show (if e.event = "start" then
              (match findFirstPro rest with | some v => [v] | none => []) ++
                ttFirstList (skipPastBoundary rest)
            else ttFirstList rest) = ttFirstListSpec (e :: rest)
          rw [if_neg hs, ih rest hlen htail]
          simp [ttFirstListSpec, hs]
  exact main l.length l (Nat.le_refl _) h

/-- The third component of `session_stats_in_range` in closed form. -/
theorem session_stats_third (events : List Event) (startDay endDay : String) :
    (session_stats_in_range events startDay endDay).2.2
      = (if ttFirstList (events_in_range events startDay endDay) ≠ [] then
          some (((ttFirstList (events_in_range events startDay endDay)).sum : ℚ)
            / ((ttFirstList (events_in_range events startDay endDay)).length : ℚ))
        else none) := rfl

/-- C3 (amended): the time-to-first-procrastination average is as the claim
describes it — first `procrastination` strictly inside each window, sessions
without one excluded, average over exactly the sessions that had one — except
that a `start` event which itself terminates an earlier start's window is
consumed as that boundary and opens no window of its own.  Whenever no start
serves as another start's boundary in the range, the code's average equals
the spec's. -/
theorem avg_tt_matches_spec_when_no_start_boundary (events : List Event)
    (startDay endDay : String)
    (h : noStartBoundary (events_in_range events startDay endDay) = true) :
    (session_stats_in_range events startDay endDay).2.2 = avgTTSpec events startDay endDay := by
  rw [session_stats_third, ttFirstList_eq_spec _ h]
  rfl

/-- Witness for `avg_tt_matches_spec_when_no_start_boundary` on a well-formed
log `[start, procrastination(50), stop, start, procrastination(70)]`. -/
theorem avg_tt_matches_spec_when_no_start_boundary_witness :
    (session_stats_in_range
      [⟨0, "2024-01-01", "start", "T", 0, "", ""⟩,
       ⟨1, "2024-01-01", "procrastination", "T", 50, "", ""⟩,
       ⟨2, "2024-01-01", "stop", "T", 0, "", ""⟩,
       ⟨3, "2024-01-01", "start", "T", 0, "", ""⟩,
       ⟨4, "2024-01-01", "procrastination", "T", 70, "", ""⟩]
      "2024-01-01" "2024-01-01").2.2
      = avgTTSpec
        [⟨0, "2024-01-01", "start", "T", 0, "", ""⟩,
         ⟨1, "2024-01-01", "procrastination", "T", 50, "", ""⟩,
         ⟨2, "2024-01-01", "stop", "T", 0, "", ""⟩,
         ⟨3, "2024-01-01", "start", "T", 0, "", ""⟩,
         ⟨4, "2024-01-01", "procrastination", "T", 70, "", ""⟩]
        "2024-01-01" "2024-01-01" :=
  avg_tt_matches_spec_when_no_start_boundary
    [⟨0, "2024-01-01", "start", "T", 0, "", ""⟩,
     ⟨1, "2024-01-01", "procrastination", "T", 50, "", ""⟩,
     ⟨2, "2024-01-01", "stop", "T", 0, "", ""⟩,
     ⟨3, "2024-01-01", "start", "T", 0, "", ""⟩,
     ⟨4, "2024-01-01", "procrastination", "T", 70, "", ""⟩]
    "2024-01-01" "2024-01-01" (by decide)

/-- C3 counterexample to the claim as stated: in
`[start, start, procrastination(100), stop]` the second `start` is consumed as
the first window's boundary, so the code collects no session at all (average
`None`), while the claim's per-start scan gives the second start a window
containing the procrastination at `100` (average `100`). -/
theorem consecutive_starts_drop_session :
    (session_stats_in_range
      [⟨0, "2024-01-01", "start", "T", 0, "", ""⟩,
       ⟨1, "2024-01-01", "start", "T", 0, "", ""⟩,
       ⟨2, "2024-01-01", "procrastination", "T", 100, "", ""⟩,
       ⟨3, "2024-01-01", "stop", "T", 0, "", ""⟩]
      "2024-01-01" "2024-01-01").2.2 = none
    ∧ avgTTSpec
      [⟨0, "2024-01-01", "start", "T", 0, "", ""⟩,
       ⟨1, "2024-01-01", "start", "T", 0, "", ""⟩,
       ⟨2, "2024-01-01", "procrastination", "T", 100, "", ""⟩,
       ⟨3, "2024-01-01", "stop", "T", 0, "", ""⟩]
      "2024-01-01" "2024-01-01" = some 100 := by
  have hev : events_in_range
      [⟨0, "2024-01-01", "start", "T", 0, "", ""⟩,
       ⟨1, "2024-01-01", "start", "T", 0, "", ""⟩,
       ⟨2, "2024-01-01", "procrastination", "T", 100, "", ""⟩,
       ⟨3, "2024-01-01", "stop", "T", 0, "", ""⟩]
      "2024-01-01" "2024-01-01"
      = [⟨0, "2024-01-01", "start", "T", 0, "", ""⟩,
         ⟨1, "2024-01-01", "start", "T", 0, "", ""⟩,
         ⟨2, "2024-01-01", "procrastination", "T", 100, "", ""⟩,
         ⟨3, "2024-01-01", "stop", "T", 0, "", ""⟩] := by decide
  have htt : ttFirstList
      [⟨0, "2024-01-01", "start", "T", 0, "", ""⟩,
       ⟨1, "2024-01-01", "start", "T", 0, "", ""⟩,
       ⟨2, "2024-01-01", "procrastination", "T", 100, "", ""⟩,
       ⟨3, "2024-01-01", "stop", "T", 0, "", ""⟩] = [] := by
    simp [ttFirstList, findFirstPro, skipPastBoundary, isBoundary]
  have hspec : ttFirstListSpec
      [⟨0, "2024-01-01", "start", "T", 0, "", ""⟩,
       ⟨1, "2024-01-01", "start", "T", 0, "", ""⟩,
       ⟨2, "2024-01-01", "procrastination", "T", 100, "", ""⟩,
       ⟨3, "2024-01-01", "stop", "T", 0, "", ""⟩] = [100] := by decide
  constructor
  · rw [session_stats_third, hev, htt]
    simp
  · unfold avgTTSpec
    rw [hev, hspec]
    norm_num

/-! ### `sessions_by_task_in_range` (claims C6, C10) -/

/-- Looking up the updated key. -/
theorem alookup_updateTally_self (m : List (String × SessRec)) (t : String)
    (f : SessRec → SessRec) :
    alookup t (updateTally m t f) = some (f ((alookup t m).getD ⟨0, 0, 0⟩)) := by
  induction m with
  | nil => simp [updateTally, alookup]
  | cons p rest ih =>
    obtain ⟨k, v⟩ := p
    by_cases hk : k = t
    · subst hk
      simp [updateTally, alookup]
    · simp [updateTally, alookup, hk, ih]

/-- Looking up a different key after an update. -/
theorem alookup_updateTally_other (m : List (String × SessRec)) (t u : String)
    (f : SessRec → SessRec) (h : u ≠ t) :
    alookup t (updateTally m u f) = alookup t m := by
  induction m with
  | nil => simp [updateTally, alookup, h]
  | cons p rest ih =>
    obtain ⟨k, v⟩ := p
    by_cases hk : k = u
    · subst hk
      simp [updateTally, alookup, h]
    · simp [updateTally, alookup, hk, ih]

/-- A successful lookup is a member. -/
theorem alookup_mem {β : Type} (t : String) (m : List (String × β)) (v : β)
    (h : alookup t m = some v) : (t, v) ∈ m := by
  induction m with
  | nil => simp [alookup] at h
  | cons p rest ih =>
    obtain ⟨k, w⟩ := p
    by_cases hk : k = t
    · subst hk
      simp [alookup] at h
      simp [h]
    · simp [alookup, hk] at h
      simp [ih h]

/-- With duplicate-free keys, membership determines the lookup. -/
theorem mem_alookup {β : Type} (m : List (String × β)) (t : String) (v : β)
    (hnd : (m.map Prod.fst).Nodup) (h : (t, v) ∈ m) : alookup t m = some v := by
  induction m with
  | nil => simp at h
  | cons p rest ih =>
    obtain ⟨k, w⟩ := p
    rw [List.map_cons, List.nodup_cons] at hnd
    rcases List.mem_cons.mp h with h1 | h1
    · rw [Prod.mk.injEq] at h1
      obtain ⟨hk, hv⟩ := h1
      subst hk
      subst hv
      simp [alookup]
    · have hk : ¬ k = t := by
        intro hk
        subst hk
        exact hnd.1 (List.mem_map.mpr ⟨(k, v), h1, rfl⟩)
      simp only [alookup, hk, if_false]
      exact ih hnd.2 h1

/-- Keys after an update: unchanged when present, appended when new. -/
theorem updateTally_keys (m : List (String × SessRec)) (t : String) (f : SessRec → SessRec) :
    (updateTally m t f).map Prod.fst
      = if t ∈ m.map Prod.fst then m.map Prod.fst else m.map Prod.fst ++ [t] := by
  induction m with
  | nil => simp [updateTally]
  | cons p rest ih =>
    obtain ⟨k, v⟩ := p
    by_cases hk : k = t
    · subst hk
      simp [updateTally]
    · have hne : t ≠ k := fun h => hk h.symm
      by_cases hm : t ∈ rest.map Prod.fst
      · simp [updateTally, hk, ih, hm, hne]
      · simp [updateTally, hk, ih, hm, hne]

/-- The tally fold keeps its keys duplicate-free. -/
theorem foldl_tallyStep_keys_nodup (evs : List Event) (m : List (String × SessRec))
    (h : (m.map Prod.fst).Nodup) : ((evs.foldl tallyStep m).map Prod.fst).Nodup := by
  induction evs generalizing m with
  | nil => simpa using h
  | cons e rest ih =>
    rw [List.foldl_cons]
    apply ih
    unfold tallyStep
    split_ifs with h1 h2
    · rw [updateTally_keys]
      split_ifs with hmem
      · exact h
      · simp [List.nodup_append, h, hmem]
    · rw [updateTally_keys]
      split_ifs with hmem
      · exact h
      · simp [List.nodup_append, h, hmem]
    · exact h

/-- Central characterization of the tally fold: the record stored for task `t`
adds, on top of whatever the accumulator already held for `t`, one session per
`stop` event for `t`, those `stop` events' seconds, and one cancel per
`cancel` event for `t`; `t` has an entry iff it had one before or some
`stop`/`cancel` event in the list is credited to it. -/
theorem alookup_foldl_tallyStep (evs : List Event) (m : List (String × SessRec)) (t : String) :
    alookup t (evs.foldl tallyStep m)
      = if (alookup t m).isSome || evs.any (touchesTask t) then
          some ⟨((alookup t m).getD ⟨0, 0, 0⟩).sessions + countStops evs t,
                ((alookup t m).getD ⟨0, 0, 0⟩).total_secs + sumStopSecs evs t,
                ((alookup t m).getD ⟨0, 0, 0⟩).cancels + countCancels evs t⟩
        else none := by
  induction evs generalizing m with
  | nil =>
    simp only [List.foldl_nil, List.any_nil, Bool.or_false, countStops, sumStopSecs,
      countCancels, List.countP_nil, List.filter_nil, List.map_nil, List.sum_nil,
      Nat.add_zero, Int.add_zero]
    cases h : alookup t m <;> simp [h]
  | cons e rest ih =>
    rw [List.foldl_cons, ih]
    by_cases hstop : e.event = "stop"
    · by_cases htask : normTask e.task = t
      · have hup : tallyStep m e = updateTally m t
            (fun r => { r with sessions := r.sessions + 1, total_secs := r.total_secs + e.secs }) := by
          simp [tallyStep, hstop, htask]
        rw [hup, alookup_updateTally_self]
        have htouch : touchesTask t e = true := by
          simp [touchesTask, isStopFor, hstop, htask]
        have hcs : countStops (e :: rest) t = countStops rest t + 1 := by
          simp [countStops, List.countP_cons, isStopFor, hstop, htask]
        have hss : sumStopSecs (e :: rest) t = e.secs + sumStopSecs rest t := by
          simp [sumStopSecs, List.filter_cons, isStopFor, hstop, htask]
        have hcc : countCancels (e :: rest) t = countCancels rest t := by
          have : isCancelFor t e = false := by
            simp [isCancelFor, hstop]
          simp [countCancels, List.countP_cons, this]
        simp only [List.any_cons, htouch, Bool.true_or, Bool.or_true, Option.isSome_some,
          Option.getD_some, if_true, hcs, hss, hcc]
        refine congrArg some ?_
        refine SessRec.mk.injEq .. ▸ ⟨?_, ?_, ?_⟩ <;> dsimp <;> omega
      · have hup : tallyStep m e = updateTally m (normTask e.task)
            (fun r => { r with sessions := r.sessions + 1, total_secs := r.total_secs + e.secs }) := by
          simp [tallyStep, hstop]
        rw [hup, alookup_updateTally_other _ _ _ _ htask]
        have htouch : touchesTask t e = false := by
          simp [touchesTask, isStopFor, isCancelFor, hstop, htask]
        have hcs : countStops (e :: rest) t = countStops rest t := by
          simp [countStops, List.countP_cons, isStopFor, htask]
        have hss : sumStopSecs (e :: rest) t = sumStopSecs rest t := by
          simp [sumStopSecs, List.filter_cons, isStopFor, htask]
        have hcc : countCancels (e :: rest) t = countCancels rest t := by
          have : isCancelFor t e = false := by
            simp [isCancelFor, hstop]
          simp [countCancels, List.countP_cons, this]
        simp [List.any_cons, htouch, hcs, hss, hcc]
    · by_cases hcancel : e.event = "cancel"
      · by_cases htask : normTask e.task = t
        · have hup : tallyStep m e = updateTally m t
              (fun r => { r with cancels := r.cancels + 1 }) := by
            simp [tallyStep, hstop, hcancel, htask]
          rw [hup, alookup_updateTally_self]
          have htouch : touchesTask t e = true := by
            simp [touchesTask, isCancelFor, hcancel, htask]
          have hcs : countStops (e :: rest) t = countStops rest t := by
            have : isStopFor t e = false := by
              simp [isStopFor, hstop]
            simp [countStops, List.countP_cons, this]
          have hss : sumStopSecs (e :: rest) t = sumStopSecs rest t := by
            have : isStopFor t e = false := by
              simp [isStopFor, hstop]
            simp [sumStopSecs, List.filter_cons, this]
          have hcc : countCancels (e :: rest) t = countCancels rest t + 1 := by
            simp [countCancels, List.countP_cons, isCancelFor, hcancel, htask]
          simp only [List.any_cons, htouch, Bool.true_or, Bool.or_true, Option.isSome_some,
            Option.getD_some, if_true, hcs, hss, hcc]
          refine congrArg some ?_
          refine SessRec.mk.injEq .. ▸ ⟨?_, ?_, ?_⟩ <;> dsimp <;> omega
        · have hup : tallyStep m e = updateTally m (normTask e.task)
              (fun r => { r with cancels := r.cancels + 1 }) := by
            simp [tallyStep, hstop, hcancel]
          rw [hup, alookup_updateTally_other _ _ _ _ htask]
          have htouch : touchesTask t e = false := by
            simp [touchesTask, isStopFor, isCancelFor, hcancel, htask]
          have hcs : countStops (e :: rest) t = countStops rest t := by
            simp [countStops, List.countP_cons, isStopFor, htask]
          have hss : sumStopSecs (e :: rest) t = sumStopSecs rest t := by
            simp [sumStopSecs, List.filter_cons, isStopFor, htask]
          have hcc : countCancels (e :: rest) t = countCancels rest t := by
            simp [countCancels, List.countP_cons, isCancelFor, htask]
          simp [List.any_cons, htouch, hcs, hss, hcc]
      · have hup : tallyStep m e = m := by
          simp [tallyStep, hstop, hcancel]
        rw [hup]
        have htouch : touchesTask t e = false := by
          simp [touchesTask, isStopFor, isCancelFor, hstop, hcancel]
        have hcs : countStops (e :: rest) t = countStops rest t := by
          have : isStopFor t e = false := by
            simp [isStopFor, hstop]
          simp [countStops, List.countP_cons, this]
        have hss : sumStopSecs (e :: rest) t = sumStopSecs rest t := by
          have : isStopFor t e = false := by
            simp [isStopFor, hstop]
          simp [sumStopSecs, List.filter_cons, this]
        have hcc : countCancels (e :: rest) t = countCancels rest t := by
          have : isCancelFor t e = false := by
            simp [isCancelFor, hcancel]
          simp [countCancels, List.countP_cons, this]
        simp [List.any_cons, htouch, hcs, hss, hcc]

/-- The tally over the range, starting from the empty dict. -/
theorem alookup_tally (evs : List Event) (t : String) :
    alookup t (evs.foldl tallyStep [])
      = if evs.any (touchesTask t) then
          some ⟨countStops evs t, sumStopSecs evs t, countCancels evs t⟩
        else none := by
  rw [alookup_foldl_tallyStep]
  simp [alookup]

/-- A task with no `stop` events contributes no seconds. -/
theorem sumStopSecs_eq_zero_of_no_stops (evs : List Event) (t : String)
    (h : countStops evs t = 0) : sumStopSecs evs t = 0 := by
  unfold countStops at h
  unfold sumStopSecs
  rw [List.filter_eq_nil_iff.mpr (List.countP_eq_zero.mp h)]
  simp

/-- Range filtering commutes with pre-filtering the event list. -/
theorem events_in_range_filter (events : List Event) (p : Event → Bool)
    (startDay endDay : String) :
    events_in_range (events.filter p) startDay endDay
      = (events_in_range events startDay endDay).filter p := by
  simp only [events_in_range, List.filter_filter]
  congr 1
  funext e
  exact Bool.and_comm _ _

/-- The tally fold never looks at events other than `stop`/`cancel`; in
particular dropping all `session_complete` events changes nothing. -/
theorem foldl_tallyStep_filter_sc (evs : List Event) (m : List (String × SessRec)) :
    (evs.filter (fun e => !decide (e.event = "session_complete"))).foldl tallyStep m
      = evs.foldl tallyStep m := by
  induction evs generalizing m with
  | nil => rfl
  | cons e rest ih =>
    by_cases hsc : e.event = "session_complete"
    · have hstep : tallyStep m e = m := by
        simp [tallyStep, hsc]
      simp [List.filter_cons, hsc, List.foldl_cons, hstep, ih]
    · simp [List.filter_cons, hsc, List.foldl_cons, ih]

/-- C6: every row of `sessions_by_task_in_range` counts exactly the `stop`
events of its task as sessions, sums exactly those events' seconds, counts
`cancel` events in the separate cancel column (never in `sessions`), and
averages `total/sessions` only over a positive session count; legacy
`session_complete` events are ignored entirely — removing them from the log
does not change the output at all. -/
theorem sessions_counted_only_on_stop (events : List Event) (startDay endDay t : String)
    (sess : Nat) (tot : Int) (avg : Option ℚ) (canc : Nat)
    (hmem : (t, sess, tot, avg, canc) ∈ sessions_by_task_in_range events startDay endDay) :
    sess = countStops (events_in_range events startDay endDay) t
    ∧ tot = sumStopSecs (events_in_range events startDay endDay) t
    ∧ canc = countCancels (events_in_range events startDay endDay) t
    ∧ avg = (if 0 < sess then some ((tot : ℚ) / (sess : ℚ)) else none)
    ∧ sessions_by_task_in_range events startDay endDay
        = sessions_by_task_in_range
            (events.filter (fun e => !decide (e.event = "session_complete"))) startDay endDay := by
  have hinv : sessions_by_task_in_range events startDay endDay
      = sessions_by_task_in_range
          (events.filter (fun e => !decide (e.event = "session_complete"))) startDay endDay := by
    unfold sessions_by_task_in_range
    rw [events_in_range_filter]
    dsimp only
    rw [foldl_tallyStep_filter_sc]
  unfold sessions_by_task_in_range at hmem
  rw [List.mem_insertionSort] at hmem
  obtain ⟨⟨k, r⟩, hkr, heq⟩ := List.mem_map.mp hmem
  unfold sessRowOf at heq
  rw [Prod.mk.injEq, Prod.mk.injEq, Prod.mk.injEq, Prod.mk.injEq] at heq
  obtain ⟨hk, hsess, htot, havg, hcanc⟩ := heq
  subst hk
  have hlk : alookup k ((events_in_range events startDay endDay).foldl tallyStep []) = some r :=
    mem_alookup _ _ _ (foldl_tallyStep_keys_nodup _ [] (by simp)) hkr
  rw [alookup_tally] at hlk
  by_cases htouch : (events_in_range events startDay endDay).any (touchesTask k)
  · rw [if_pos htouch] at hlk
    have hr : r = ⟨countStops (events_in_range events startDay endDay) k,
                   sumStopSecs (events_in_range events startDay endDay) k,
                   countCancels (events_in_range events startDay endDay) k⟩ :=
      (Option.some.inj hlk).symm
    subst hr
    refine ⟨hsess.symm, htot.symm, hcanc.symm, ?_, hinv⟩
    rw [← hsess, ← htot, havg]
  · rw [if_neg htouch] at hlk
    simp at hlk

/-- Witness for `sessions_counted_only_on_stop`: with one `stop` (600 s) for
task `A` and one `cancel` for task `B`, task `B`'s row is
`(B, 0, 0, None, 1)`. -/
theorem sessions_counted_only_on_stop_witness :
    (0 : Nat) = countStops (events_in_range
        [⟨0, "2024-01-01", "stop", "A", 600, "", ""⟩,
         ⟨1, "2024-01-01", "cancel", "B", 30, "", ""⟩]
        "2024-01-01" "2024-01-01") "B"
    ∧ (0 : Int) = sumStopSecs (events_in_range
        [⟨0, "2024-01-01", "stop", "A", 600, "", ""⟩,
         ⟨1, "2024-01-01", "cancel", "B", 30, "", ""⟩]
        "2024-01-01" "2024-01-01") "B"
    ∧ (1 : Nat) = countCancels (events_in_range
        [⟨0, "2024-01-01", "stop", "A", 600, "", ""⟩,
         ⟨1, "2024-01-01", "cancel", "B", 30, "", ""⟩]
        "2024-01-01" "2024-01-01") "B"
    ∧ (none : Option ℚ) = (if 0 < (0 : Nat) then some (((0 : Int) : ℚ) / ((0 : Nat) : ℚ)) else none)
    ∧ sessions_by_task_in_range
        [⟨0, "2024-01-01", "stop", "A", 600, "", ""⟩,
         ⟨1, "2024-01-01", "cancel", "B", 30, "", ""⟩]
        "2024-01-01" "2024-01-01"
      = sessions_by_task_in_range
          ([⟨0, "2024-01-01", "stop", "A", 600, "", ""⟩,
            ⟨1, "2024-01-01", "cancel", "B", 30, "", ""⟩].filter
            (fun e => !decide (e.event = "session_complete")))
          "2024-01-01" "2024-01-01" :=
  sessions_counted_only_on_stop
    [⟨0, "2024-01-01", "stop", "A", 600, "", ""⟩,
     ⟨1, "2024-01-01", "cancel", "B", 30, "", ""⟩]
    "2024-01-01" "2024-01-01" "B" 0 0 none 1 (by decide)

/-- C10: a task with at least one `cancel` and no `stop` in the range still
gets a row: zero sessions, zero total seconds, an undefined (`None`) average,
and its cancel count. -/
theorem cancel_only_task_row (events : List Event) (startDay endDay t : String)
    (hc : 0 < countCancels (events_in_range events startDay endDay) t)
    (hs : countStops (events_in_range events startDay endDay) t = 0) :
    (t, 0, 0, (none : Option ℚ), countCancels (events_in_range events startDay endDay) t)
      ∈ sessions_by_task_in_range events startDay endDay := by
  have htouch : (events_in_range events startDay endDay).any (touchesTask t) = true := by
    rw [List.any_eq_true]
    obtain ⟨e, he, hp⟩ := List.countP_pos_iff.mp hc
    exact ⟨e, he, by simp [touchesTask, hp]⟩
  have hlk : alookup t ((events_in_range events startDay endDay).foldl tallyStep [])
      = some ⟨0, 0, countCancels (events_in_range events startDay endDay) t⟩ := by
    rw [alookup_tally, if_pos htouch, hs, sumStopSecs_eq_zero_of_no_stops _ _ hs]
  have hmem := alookup_mem _ _ _ hlk
  unfold sessions_by_task_in_range
  rw [List.mem_insertionSort]
  refine List.mem_map.mpr ⟨_, hmem, ?_⟩
  unfold sessRowOf
  simp

/-- Witness for `cancel_only_task_row`: a log holding two `cancel`s and no
`stop` for task `C`. -/
theorem cancel_only_task_row_witness :
    ("C", 0, 0, (none : Option ℚ), countCancels (events_in_range
        [⟨0, "2024-02-01", "cancel", "C", 12, "", ""⟩,
         ⟨1, "2024-02-01", "cancel", "C", 40, "", ""⟩,
         ⟨2, "2024-02-01", "start", "C", 0, "", ""⟩]
        "2024-02-01" "2024-02-01") "C")
      ∈ sessions_by_task_in_range
          [⟨0, "2024-02-01", "cancel", "C", 12, "", ""⟩,
           ⟨1, "2024-02-01", "cancel", "C", 40, "", ""⟩,
           ⟨2, "2024-02-01", "start", "C", 0, "", ""⟩]
          "2024-02-01" "2024-02-01" :=
  cancel_only_task_row
    [⟨0, "2024-02-01", "cancel", "C", 12, "", ""⟩,
     ⟨1, "2024-02-01", "cancel", "C", 40, "", ""⟩,
     ⟨2, "2024-02-01", "start", "C", 0, "", ""⟩]
    "2024-02-01" "2024-02-01" "C" (by decide) (by decide)

end Procheck
